import Mathlib

/-!
Verification development for the `sheduler` AI parse service
(`src/ai-service/app`): a shallow embedding of the provider router
(`providers.py`), the job model (`models.py`), the in-memory job store
(`store.py`) and the lifecycle coordinator (`service.py`), together with
theorems about the quota, rollout, concurrency and circuit-breaker
behaviour and the job lifecycle rules.

Modelling conventions:
* Monotonic timestamps and durations are rationals (ℚ).  `window_seconds`
  and `cooldown_seconds` are annotated `int` in the source, but Python does
  not enforce annotations and the test suite passes `cooldown_seconds=0.05`,
  so they are modelled as ℚ as well.
* Python `int` counters and quota values are modelled as `Int`.
* Python dicts and sets are modelled as association lists / lists; updates
  replace the first matching key, insertions append, mirroring dict
  semantics for the operations the code performs.
* Python truthiness is modelled explicitly where the code relies on it:
  `if state.circuit_open_until and ...` is false for `None` and for `0.0`;
  `if config.org_quotas:` is false for `None` and for an empty dict.
* The asynchronous provider client is modelled by a `ClientOutcome`
  parameter (the events it would return, or a failure); `parse_with`
  becomes a pure step function on `ProviderState`, and the two locked
  sections of a call (admission, completion) are also exposed separately
  so that interleavings of concurrent calls can be described.
-/

namespace Sheduler

/-- Association-list lookup keyed by a decidable-equality key, returning the
value at the first matching key (Python `dict.get(k)`). -/
def lookupKey {κ α : Type} [DecidableEq κ] : List (κ × α) → κ → Option α
  | [], _ => none
  | (k', v) :: rest, k => if k' = k then some v else lookupKey rest k

/-- Association-list store keyed by a decidable-equality key: replaces the
value at the first matching key, or appends when absent (Python
`d[k] = v`). -/
def setKey {κ α : Type} [DecidableEq κ] : List (κ × α) → κ → α → List (κ × α)
  | [], k, v => [(k, v)]
  | (k', v') :: rest, k, v =>
      if k' = k then (k, v) :: rest else (k', v') :: setKey rest k v

/-- `dict.get(k, 0)` over an `Int`-valued association list. -/
def lookupD {κ : Type} [DecidableEq κ] (m : List (κ × Int)) (k : κ) : Int :=
  match lookupKey m k with
  | some v => v
  | none => 0

/-- Sum of the values of an `Int`-valued association list. -/
def sumValues {κ : Type} (m : List (κ × Int)) : Int :=
  (m.map Prod.snd).sum

/-- `models.Provider`: the closed provider enumeration. -/
inductive Provider where
  | OPENAI
  | OPENROUTER
  | QWEN_LOCAL
deriving DecidableEq, Repr

/-- `models.JobStatus`. -/
inductive JobStatus where
  | PENDING
  | RUNNING
  | SUCCEEDED
  | FAILED
  | NEEDS_REVIEW
deriving DecidableEq, Repr

/-- `models.ReviewDecision`. -/
inductive ReviewDecision where
  | APPROVED
  | REJECTED
deriving DecidableEq, Repr

/-- `models.ToolCall`.  `payload` is `Dict[str, Any]` in the source; the
operations verified here never inspect it, and the only payloads the code
builds are string-valued, so it is modelled as a string-valued map. -/
structure ToolCall where
  type : String
  payload : List (String × String)
  needs_approval : Bool := false
deriving DecidableEq, Repr

/-- `models.ParsedEvent`.  `confidence` is a Python float; it is modelled
as ℚ. -/
structure ParsedEvent where
  title : String
  weekday : Int
  start : String
  /-- The source field is named `end`, a Lean keyword. -/
  endTime : String
  location : Option String
  assignees : List String
  confidence : ℚ
  tool_calls : List ToolCall := []
deriving DecidableEq, Repr

/-- `models.ParseJob`.  `metadata` is `Dict[str, Any]`; the verified
operations only ever store the strings `"approved"` and `"rejected"` in
it, so it is modelled as a string-valued map.  `created_at` is an instant,
modelled as ℚ. -/
structure ParseJob where
  id : String
  org_id : String
  creator_id : String
  provider : Provider
  source_url : String
  created_at : ℚ
  status : JobStatus
  events : List ParsedEvent := []
  error : Option String := none
  metadata : List (String × String) := []
deriving DecidableEq, Repr

/-- `providers.ProviderRollout`. -/
structure ProviderRollout where
  allow_by_default : Bool := true
  allowlist : List String := []
  blocklist : List String := []
deriving DecidableEq, Repr

/-- `ProviderRollout.is_allowed`. -/
def ProviderRollout.is_allowed (r : ProviderRollout) (org_id : String) : Bool :=
  if r.allow_by_default then !(r.blocklist.contains org_id)
  else r.allowlist.contains org_id

/-- `providers.ProviderConfig`.  The `client` field is not part of the
state model: the client's behaviour enters `parse_with` through the
`ClientOutcome` parameter. -/
structure ProviderConfig where
  enabled : Bool := true
  quota_per_window : Option Int := none
  window_seconds : ℚ := 60
  org_quotas : Option (List (String × Int)) := none
  concurrency_limit : Option Int := none
  failure_threshold : Int := 3
  cooldown_seconds : ℚ := 30
  rollout : Option ProviderRollout := none
deriving DecidableEq, Repr

/-- `providers.ProviderState`. -/
structure ProviderState where
  window_started_at : ℚ
  window_count : Int := 0
  org_counts : List (String × Int) := []
  inflight : Int := 0
  failure_count : Int := 0
  circuit_open_until : Option ℚ := none
deriving DecidableEq, Repr

/-- The state installed by `ProviderRouter.register`:
`ProviderState(window_started_at=time.monotonic())`. -/
def initState (now : ℚ) : ProviderState :=
  { window_started_at := now }

/-- The failures `parse_with` can raise.  `INVALID_PROVIDER` is the
`ValueError` for an unregistered provider; `CLIENT_FAILURE` is the
re-raised exception of the provider client. -/
inductive RouterError where
  | INVALID_PROVIDER
  | PROVIDER_UNAVAILABLE
  | QUOTA_EXCEEDED
  | CONCURRENCY_LIMIT
  | CIRCUIT_OPEN
  | CLIENT_FAILURE
deriving DecidableEq, Repr

/-- `if state.circuit_open_until and now < state.circuit_open_until:` —
Python truthiness makes both `None` and `0.0` skip the check. -/
def circuitBlocked (s : ProviderState) (now : ℚ) : Bool :=
  match s.circuit_open_until with
  | some t => decide (t ≠ 0) && decide (now < t)
  | none => false

/-- `if config.rollout and not config.rollout.is_allowed(org_id):` — a
dataclass instance is always truthy, so only `None` skips the check. -/
def rolloutDenied (cfg : ProviderConfig) (org_id : String) : Bool :=
  match cfg.rollout with
  | some r => !(r.is_allowed org_id)
  | none => false

/-- The rolling-window reset (`providers.py` lines 106–109): performed
after the enablement / circuit / rollout gates and before the quota
gates. -/
def resetWindow (cfg : ProviderConfig) (s : ProviderState) (now : ℚ) : ProviderState :=
  if cfg.window_seconds ≤ now - s.window_started_at then
    { s with window_started_at := now, window_count := 0, org_counts := [] }
  else s

/-- `config.quota_per_window is not None and state.window_count >= config.quota_per_window`. -/
def globalQuotaExceeded (cfg : ProviderConfig) (s : ProviderState) : Bool :=
  match cfg.quota_per_window with
  | some q => decide (q ≤ s.window_count)
  | none => false

/-- The per-organization quota gate (`providers.py` lines 111–116):
`if config.org_quotas:` is skipped for `None` and for an empty dict. -/
def orgQuotaExceeded (cfg : ProviderConfig) (s : ProviderState) (org_id : String) : Bool :=
  match cfg.org_quotas with
  | some m =>
      if m.isEmpty then false
      else
        match lookupKey m org_id with
        | some q => decide (q ≤ lookupD s.org_counts org_id)
        | none => false
  | none => false

/-- `config.concurrency_limit is not None and state.inflight >= config.concurrency_limit`. -/
def concurrencyBlocked (cfg : ProviderConfig) (s : ProviderState) : Bool :=
  match cfg.concurrency_limit with
  | some c => decide (c ≤ s.inflight)
  | none => false

/-- The counter updates on admission (`providers.py` lines 122–125). -/
def admitCounts (s : ProviderState) (org_id : String) : ProviderState :=
  { s with
    window_count := s.window_count + 1
    org_counts := setKey s.org_counts org_id (lookupD s.org_counts org_id + 1)
    inflight := s.inflight + 1 }

/-- Result of the admission phase of `parse_with` (the first locked
section): the error raised, if any, and the provider state as left by the
phase (the window reset is a state mutation that persists even when a
later gate raises). -/
structure AdmitOut where
  error : Option RouterError
  state : ProviderState
deriving DecidableEq, Repr

/-- The admission phase of `parse_with` (`providers.py` lines 96–125),
executed under the router lock. -/
def admitStep (cfg : ProviderConfig) (s : ProviderState) (now : ℚ)
    (org_id : String) : AdmitOut :=
  if !cfg.enabled then ⟨some .PROVIDER_UNAVAILABLE, s⟩
  else if circuitBlocked s now then ⟨some .CIRCUIT_OPEN, s⟩
  else if rolloutDenied cfg org_id then ⟨some .PROVIDER_UNAVAILABLE, s⟩
  else
    let s1 := resetWindow cfg s now
    if globalQuotaExceeded cfg s1 then ⟨some .QUOTA_EXCEEDED, s1⟩
    else if orgQuotaExceeded cfg s1 org_id then ⟨some .QUOTA_EXCEEDED, s1⟩
    else if concurrencyBlocked cfg s1 then ⟨some .CONCURRENCY_LIMIT, s1⟩
    else ⟨none, admitCounts s1 org_id⟩

/-- The completion bookkeeping after a failed client call (`providers.py`
lines 129–136), executed under the router lock at monotonic time `now2`. -/
def onFailure (cfg : ProviderConfig) (s : ProviderState) (now2 : ℚ) : ProviderState :=
  let s1 := { s with inflight := max 0 (s.inflight - 1),
                     failure_count := s.failure_count + 1 }
  if cfg.failure_threshold ≤ s1.failure_count then
    { s1 with circuit_open_until := some (now2 + cfg.cooldown_seconds),
              failure_count := 0 }
  else s1

/-- The completion bookkeeping after a successful client call
(`providers.py` lines 138–141), executed under the router lock. -/
def onSuccess (s : ProviderState) : ProviderState :=
  { s with inflight := max 0 (s.inflight - 1), failure_count := 0 }

/-- Behaviour of the provider client on one call: the events it returns,
or a raised exception. -/
inductive ClientOutcome where
  | ok (events : List ParsedEvent)
  | err
deriving DecidableEq, Repr

deriving instance DecidableEq for Except

/-- Observable result of one `parse_with` call: the returned events or the
raised error, the provider state afterwards, and whether the client was
invoked. -/
structure StepOut where
  result : Except RouterError (List ParsedEvent)
  state : ProviderState
  invoked : Bool
deriving DecidableEq, Repr

/-- `ProviderRouter.parse_with` for a registered provider, as a state
transformer: admission under the lock, then (only when admitted) the
client call with outcome `outcome`, then the completion bookkeeping under
the lock at time `now2`. -/
def parse_with (cfg : ProviderConfig) (s : ProviderState) (now now2 : ℚ)
    (org_id : String) (outcome : ClientOutcome) : StepOut :=
  let a := admitStep cfg s now org_id
  match a.error with
  | some e => ⟨.error e, a.state, false⟩
  | none =>
      match outcome with
      | .ok events => ⟨.ok events, onSuccess a.state, true⟩
      | .err => ⟨.error .CLIENT_FAILURE, onFailure cfg a.state now2, true⟩

/-- `ProviderRouter`: the configuration and state tables, as an
association list over the provider enumeration. -/
structure Router where
  entries : List (Provider × ProviderConfig × ProviderState)
deriving DecidableEq, Repr

/-- `ProviderRouter.register`: re-registration replaces both the config
and the state (`window_started_at := time.monotonic()`). -/
def Router.register (r : Router) (p : Provider) (cfg : ProviderConfig)
    (now : ℚ) : Router :=
  ⟨setKey r.entries p (cfg, initState now)⟩

/-- Observable result of a router-level `parse_with` call. -/
structure RouterOut where
  result : Except RouterError (List ParsedEvent)
  invoked : Bool
  router : Router
deriving DecidableEq, Repr

/-- `ProviderRouter.parse_with` at the router level: an unregistered
provider raises `ValueError` (`INVALID_PROVIDER`) before anything else. -/
def Router.parse_with (r : Router) (p : Provider) (now now2 : ℚ)
    (org_id : String) (outcome : ClientOutcome) : RouterOut :=
  match lookupKey r.entries p with
  | none => ⟨.error .INVALID_PROVIDER, false, r⟩
  | some (cfg, s) =>
      let out := Sheduler.parse_with cfg s now now2 org_id outcome
      ⟨out.result, out.invoked, ⟨setKey r.entries p (cfg, out.state)⟩⟩

/-- `ParseJob.mark_running`. -/
def ParseJob.mark_running (j : ParseJob) : ParseJob :=
  { j with status := .RUNNING }

/-- `ParseJob.mark_failed`. -/
def ParseJob.mark_failed (j : ParseJob) (message : String) : ParseJob :=
  { j with status := .FAILED, error := some message }

/-- `ParseJob.mark_succeeded`: attach the events; `NEEDS_REVIEW` when any
event has `confidence < 0.6`, else `SUCCEEDED`. -/
def ParseJob.mark_succeeded (j : ParseJob) (events : List ParsedEvent) : ParseJob :=
  let needs_review := events.any fun e => decide (e.confidence < mkRat 3 5)
  { j with events := events,
           status := if needs_review then .NEEDS_REVIEW else .SUCCEEDED }

/-- `ParseJobStore._jobs`, at the level of values: job id → current
record. -/
abbrev Store := List (String × ParseJob)

/-- `ParseJobStore.get`, at the level of values. -/
def storeGet (st : Store) (job_id : String) : Option ParseJob :=
  lookupKey st job_id

/-- `ParseJobStore.update`: `self._jobs[job.id] = job`. -/
def storeUpdate (st : Store) (j : ParseJob) : Store :=
  setKey st j.id j

/-- `ParseJobStore.list_for_org`, at the level of values. -/
def listForOrg (st : Store) (org_id : String) : List ParseJob :=
  (st.map Prod.snd).filter fun j => j.org_id = org_id

/-- `ParseJobStore.mark_success`: apply `mark_succeeded`, persist, return
the job. -/
def mark_success (st : Store) (j : ParseJob) (events : List ParsedEvent) :
    ParseJob × Store :=
  let j1 := j.mark_succeeded events
  (j1, storeUpdate st j1)

/-- `ParseJobStore.mark_failure`: apply `mark_failed`, persist, return the
job. -/
def mark_failure (st : Store) (j : ParseJob) (error : String) :
    ParseJob × Store :=
  let j1 := j.mark_failed error
  (j1, storeUpdate st j1)

/-- `ParseService.review_job` (`service.py` lines 60–73): absent job →
`none`; status outside SUCCEEDED / NEEDS_REVIEW → job returned unchanged
and nothing persisted; otherwise the review metadata and final status are
set and persisted. -/
def review_job (st : Store) (job_id : String) (decision : ReviewDecision) :
    Option ParseJob × Store :=
  match storeGet st job_id with
  | none => (none, st)
  | some j =>
      if j.status = .SUCCEEDED ∨ j.status = .NEEDS_REVIEW then
        let j1 :=
          if decision = .APPROVED then
            { j with metadata := setKey j.metadata "review" "approved",
                     status := .SUCCEEDED }
          else
            { j with metadata := setKey j.metadata "review" "rejected",
                     status := .FAILED }
        (some j1, storeUpdate st j1)
      else (some j, st)

/-! ### Heap-level job store

`ParseJobStore.get` is `return self._jobs.get(job_id)` and
`list_for_org` builds a fresh list of the stored `ParseJob` objects:
both hand out the stored objects themselves, not copies.  Whether that
matters is a question of object identity, so the store is also modelled
with an explicit heap: `ParseJob` dataclass objects live at numeric
addresses, and the store dictionary maps job ids to addresses. -/

/-- The heap of `ParseJob` dataclass objects: address → current value. -/
structure JobHeap where
  objs : List (Nat × ParseJob)
deriving DecidableEq, Repr

/-- `ParseJobStore._jobs` at the heap level: job id → object address. -/
structure JobsDict where
  entries : List (String × Nat)
deriving DecidableEq, Repr

/-- Dereference an object address. -/
def heapRead (h : JobHeap) (oid : Nat) : Option ParseJob :=
  lookupKey h.objs oid

/-- In-place mutation of the `ParseJob` object at an address (what
`job.mark_running()` or `job.metadata[...] = ...` does to the object). -/
def heapWrite (h : JobHeap) (oid : Nat) (j : ParseJob) : JobHeap :=
  ⟨setKey h.objs oid j⟩

/-- `ParseJobStore.get` at the heap level: `return self._jobs.get(job_id)`
returns the stored object reference itself. -/
def heapStoreGet (d : JobsDict) (job_id : String) : Option Nat :=
  lookupKey d.entries job_id

/-- The value of the record the store currently holds for a job id. -/
def storedRecord (h : JobHeap) (d : JobsDict) (job_id : String) : Option ParseJob :=
  (heapStoreGet d job_id).bind (heapRead h)

/-- `ParseJobStore.list_for_org` at the heap level: a fresh list whose
elements are the stored object references. -/
def heapListForOrg (h : JobHeap) (d : JobsDict) (org_id : String) : List Nat :=
  d.entries.filterMap fun p =>
    match heapRead h p.2 with
    | some j => if j.org_id = org_id then some p.2 else none
    | none => none

/-! ### Interleaved router histories

`parse_with` holds the router lock twice: once for admission and once for
the completion bookkeeping; the client call in between runs unlocked, so
the locked sections of concurrent calls interleave.  A provider's state
history is therefore a sequence of atomic acts. -/

/-- One locked section of some `parse_with` call against a fixed
provider. -/
inductive Act where
  | tryAdmit (now : ℚ) (org_id : String)
  | finishOk
  | finishErr (now2 : ℚ)
deriving DecidableEq, Repr

/-- Effect of one act on the provider state (an `admit` act that is
rejected still keeps the window reset it may have performed). -/
def applyAct (cfg : ProviderConfig) (s : ProviderState) : Act → ProviderState
  | .tryAdmit now org_id => (admitStep cfg s now org_id).state
  | .finishOk => onSuccess s
  | .finishErr now2 => onFailure cfg s now2

/-- Provider states reachable from registration by any interleaving of
`parse_with` locked sections (each `parse_with` call contributes its
`admit` act and, when admitted, one `finishOk` / `finishErr` act;
re-registration restarts from `initState`). -/
inductive Reachable (cfg : ProviderConfig) : ProviderState → Prop where
  | init (now : ℚ) : Reachable cfg (initState now)
  | step {s : ProviderState} (a : Act) :
      Reachable cfg s → Reachable cfg (applyAct cfg s a)

/-! ### Sequential runs of whole `parse_with` calls -/

/-- Input of one whole `parse_with` call: admission time, completion time,
calling organization, and the client outcome. -/
structure CallSpec where
  now : ℚ
  now2 : ℚ
  org_id : String
  outcome : ClientOutcome
deriving DecidableEq, Repr

/-- One whole `parse_with` call described by a `CallSpec`. -/
def stepCall (cfg : ProviderConfig) (s : ProviderState) (c : CallSpec) : StepOut :=
  parse_with cfg s c.now c.now2 c.org_id c.outcome

/-- State after a sequence of whole `parse_with` calls. -/
def runCalls (cfg : ProviderConfig) : ProviderState → List CallSpec → ProviderState
  | s, [] => s
  | s, c :: rest => runCalls cfg (stepCall cfg s c).state rest

/-- Every call in the sequence is admitted (the client is invoked). -/
def allAdmitted (cfg : ProviderConfig) : ProviderState → List CallSpec → Bool
  | _, [] => true
  | s, c :: rest =>
      (stepCall cfg s c).invoked && allAdmitted cfg (stepCall cfg s c).state rest

/-- Every call in the sequence has a failing client. -/
def allFailing (calls : List CallSpec) : Bool :=
  calls.all fun c => c.outcome = .err

/-- The completion time of the last call of a nonempty sequence. -/
def lastNow2 : List CallSpec → ℚ
  | [] => 0
  | [c] => c.now2
  | _ :: c :: rest => lastNow2 (c :: rest)

/-- Number of calls in the sequence that are admitted. -/
def admittedCount (cfg : ProviderConfig) : ProviderState → List CallSpec → Int
  | _, [] => 0
  | s, c :: rest =>
      (if (stepCall cfg s c).invoked then 1 else 0) +
        admittedCount cfg (stepCall cfg s c).state rest

/-- Number of calls in the sequence by organization `org_id` that are
admitted. -/
def admittedForOrg (cfg : ProviderConfig) (org_id : String) :
    ProviderState → List CallSpec → Int
  | _, [] => 0
  | s, c :: rest =>
      (if (stepCall cfg s c).invoked && c.org_id = org_id then 1 else 0) +
        admittedForOrg cfg org_id (stepCall cfg s c).state rest

/-- The call reaches the window-reset statement (gates 1–3 pass) and the
window has expired, so the counters are wholesale reset. -/
def callResets (cfg : ProviderConfig) (s : ProviderState) (c : CallSpec) : Bool :=
  cfg.enabled && !circuitBlocked s c.now && !rolloutDenied cfg c.org_id &&
    decide (cfg.window_seconds ≤ c.now - s.window_started_at)

/-- No call in the sequence resets the window: the whole sequence stays
inside the window that is current at its start. -/
def noResetRun (cfg : ProviderConfig) : ProviderState → List CallSpec → Bool
  | _, [] => true
  | s, c :: rest =>
      !callResets cfg s c && noResetRun cfg (stepCall cfg s c).state rest

/-! ### Concrete sample values

Used to instantiate the theorems on explicit inputs. -/

/-- A concrete pending job. -/
def exJob : ParseJob :=
  { id := "job-1", org_id := "org-1", creator_id := "user-1",
    provider := .OPENAI, source_url := "https://example.com/sample.png",
    created_at := 0, status := .PENDING }

/-- A concrete parsed event with confidence 0.5 (below the 0.6 review
threshold). -/
def exEventLow : ParsedEvent :=
  { title := "Auto Generated (openai)", weekday := 1, start := "09:00",
    endTime := "10:30", location := some "Room 101",
    assignees := ["instructor-1"], confidence := mkRat 1 2 }

/-- A concrete parsed event with confidence 0.9 (above the 0.6 review
threshold). -/
def exEventHigh : ParsedEvent :=
  { exEventLow with confidence := mkRat 9 10 }

/-- A concrete one-object heap holding `exJob` at address 0. -/
def exHeap : JobHeap := ⟨[(0, exJob)]⟩

/-- A concrete store dictionary mapping the job id of `exJob` to its
address in `exHeap`. -/
def exDict : JobsDict := ⟨[("job-1", 0)]⟩

/-! ## Helper lemmas -/

theorem lookupKey_setKey_self {κ α : Type} [DecidableEq κ]
    (m : List (κ × α)) (k : κ) (v : α) :
    lookupKey (setKey m k v) k = some v := by
  induction m with
  | nil => simp [setKey, lookupKey]
  | cons p rest ih =>
      obtain ⟨k', v'⟩ := p
      by_cases h : k' = k <;> simp [setKey, lookupKey, h, ih]

theorem lookupKey_setKey_ne {κ α : Type} [DecidableEq κ]
    (m : List (κ × α)) (k k' : κ) (v : α) (h : k' ≠ k) :
    lookupKey (setKey m k' v) k = lookupKey m k := by
  induction m with
  | nil => simp [setKey, lookupKey, h]
  | cons p rest ih =>
      obtain ⟨k'', v''⟩ := p
      by_cases h2 : k'' = k'
      · subst h2
        simp [setKey, lookupKey, h]
      · by_cases h3 : k'' = k <;>
          simp [setKey, lookupKey, h2, h3, ih, Ne.symm h]

theorem lookupD_setKey_self {κ : Type} [DecidableEq κ]
    (m : List (κ × Int)) (k : κ) (v : Int) :
    lookupD (setKey m k v) k = v := by
  simp [lookupD, lookupKey_setKey_self]

theorem lookupD_setKey_ne {κ : Type} [DecidableEq κ]
    (m : List (κ × Int)) (k k' : κ) (v : Int) (h : k' ≠ k) :
    lookupD (setKey m k' v) k = lookupD m k := by
  simp [lookupD, lookupKey_setKey_ne m k k' v h]

theorem sumValues_cons {κ : Type} (k : κ) (v : Int) (rest : List (κ × Int)) :
    sumValues ((k, v) :: rest) = v + sumValues rest := by
  simp [sumValues]

theorem sumValues_setKey_incr {κ : Type} [DecidableEq κ]
    (m : List (κ × Int)) (k : κ) :
    sumValues (setKey m k (lookupD m k + 1)) = sumValues m + 1 := by
  induction m with
  | nil => simp [setKey, lookupD, lookupKey, sumValues]
  | cons p rest ih =>
      obtain ⟨k', v'⟩ := p
      by_cases h : k' = k
      · subst h
        simp [setKey, lookupD, lookupKey, sumValues_cons]
        ring
      · simp only [setKey, if_neg h, sumValues_cons]
        have hd : lookupD ((k', v') :: rest) k = lookupD rest k := by
          simp [lookupD, lookupKey, h]
        rw [hd, ih]
        ring

theorem lookupKey_isEmpty_false {κ α : Type} [DecidableEq κ]
    (m : List (κ × α)) (k : κ) (v : α) (h : lookupKey m k = some v) :
    m.isEmpty = false := by
  cases m with
  | nil => simp [lookupKey] at h
  | cons p rest => rfl

theorem resetWindow_inflight (cfg : ProviderConfig) (s : ProviderState) (now : ℚ) :
    (resetWindow cfg s now).inflight = s.inflight := by
  unfold resetWindow
  split <;> rfl

theorem resetWindow_failure_count (cfg : ProviderConfig) (s : ProviderState) (now : ℚ) :
    (resetWindow cfg s now).failure_count = s.failure_count := by
  unfold resetWindow
  split <;> rfl

theorem resetWindow_circuit (cfg : ProviderConfig) (s : ProviderState) (now : ℚ) :
    (resetWindow cfg s now).circuit_open_until = s.circuit_open_until := by
  unfold resetWindow
  split <;> rfl

theorem resetWindow_cases (cfg : ProviderConfig) (s : ProviderState) (now : ℚ) :
    resetWindow cfg s now = s ∨
      ((resetWindow cfg s now).window_count = 0 ∧
        (resetWindow cfg s now).org_counts = []) := by
  unfold resetWindow
  split
  · right
    exact ⟨rfl, rfl⟩
  · left
    rfl

/-- Characterization of a successful admission: every gate passed and the
three counters were incremented on the post-reset state. -/
theorem admitStep_admitted (cfg : ProviderConfig) (s : ProviderState)
    (now : ℚ) (org_id : String)
    (h : (admitStep cfg s now org_id).error = none) :
    (admitStep cfg s now org_id).state =
        admitCounts (resetWindow cfg s now) org_id ∧
      cfg.enabled = true ∧
      circuitBlocked s now = false ∧
      rolloutDenied cfg org_id = false ∧
      globalQuotaExceeded cfg (resetWindow cfg s now) = false ∧
      orgQuotaExceeded cfg (resetWindow cfg s now) org_id = false ∧
      concurrencyBlocked cfg (resetWindow cfg s now) = false := by
  unfold admitStep at h ⊢
  dsimp only at h ⊢
  split_ifs at h ⊢
  all_goals simp_all

/-- A rejected admission leaves the state either untouched or with just
the window reset applied. -/
theorem admitStep_rejected (cfg : ProviderConfig) (s : ProviderState)
    (now : ℚ) (org_id : String)
    (h : (admitStep cfg s now org_id).error ≠ none) :
    (admitStep cfg s now org_id).state = s ∨
      (admitStep cfg s now org_id).state = resetWindow cfg s now := by
  unfold admitStep at h ⊢
  dsimp only at h ⊢
  split_ifs at h ⊢ <;> simp_all

/-- `parse_with` on a rejected admission: the error is surfaced, the state
is the admission state, the client is not invoked. -/
theorem parse_with_of_reject (cfg : ProviderConfig) (s : ProviderState)
    (now now2 : ℚ) (org_id : String) (oc : ClientOutcome) (e : RouterError)
    (h : (admitStep cfg s now org_id).error = some e) :
    parse_with cfg s now now2 org_id oc =
      ⟨.error e, (admitStep cfg s now org_id).state, false⟩ := by
  simp [parse_with, h]

/-- `parse_with` on an admitted call with a failing client. -/
theorem parse_with_of_err (cfg : ProviderConfig) (s : ProviderState)
    (now now2 : ℚ) (org_id : String)
    (h : (admitStep cfg s now org_id).error = none) :
    parse_with cfg s now now2 org_id .err =
      ⟨.error .CLIENT_FAILURE,
        onFailure cfg (admitStep cfg s now org_id).state now2, true⟩ := by
  simp [parse_with, h]

/-- `parse_with` on an admitted call with a succeeding client. -/
theorem parse_with_of_ok (cfg : ProviderConfig) (s : ProviderState)
    (now now2 : ℚ) (org_id : String) (events : List ParsedEvent)
    (h : (admitStep cfg s now org_id).error = none) :
    parse_with cfg s now now2 org_id (.ok events) =
      ⟨.ok events, onSuccess (admitStep cfg s now org_id).state, true⟩ := by
  simp [parse_with, h]

/-- The client is invoked exactly when admission succeeds. -/
theorem parse_with_invoked_iff (cfg : ProviderConfig) (s : ProviderState)
    (now now2 : ℚ) (org_id : String) (oc : ClientOutcome) :
    (parse_with cfg s now now2 org_id oc).invoked = true ↔
      (admitStep cfg s now org_id).error = none := by
  unfold parse_with
  cases h : (admitStep cfg s now org_id).error <;> cases oc <;> simp [h]

theorem onSuccess_window_count (s : ProviderState) :
    (onSuccess s).window_count = s.window_count := rfl

theorem onSuccess_org_counts (s : ProviderState) :
    (onSuccess s).org_counts = s.org_counts := rfl

theorem onFailure_window_count (cfg : ProviderConfig) (s : ProviderState)
    (now2 : ℚ) : (onFailure cfg s now2).window_count = s.window_count := by
  unfold onFailure
  dsimp only
  split <;> rfl

theorem onFailure_org_counts (cfg : ProviderConfig) (s : ProviderState)
    (now2 : ℚ) : (onFailure cfg s now2).org_counts = s.org_counts := by
  unfold onFailure
  dsimp only
  split <;> rfl

theorem onFailure_window_started_at (cfg : ProviderConfig) (s : ProviderState)
    (now2 : ℚ) :
    (onFailure cfg s now2).window_started_at = s.window_started_at := by
  unfold onFailure
  dsimp only
  split <;> rfl

/-- The window-reset step preserves the equation between `window_count`
and the sum of `org_counts`. -/
theorem windowInv_resetWindow (cfg : ProviderConfig) (s : ProviderState)
    (now : ℚ) (h : s.window_count = sumValues s.org_counts) :
    (resetWindow cfg s now).window_count =
      sumValues (resetWindow cfg s now).org_counts := by
  unfold resetWindow
  split
  · simp [sumValues]
  · exact h

/-- Admission increments `window_count` and the admitting org's count
together, preserving the sum equation. -/
theorem windowInv_admitCounts (s : ProviderState) (org_id : String)
    (h : s.window_count = sumValues s.org_counts) :
    (admitCounts s org_id).window_count =
      sumValues (admitCounts s org_id).org_counts := by
  simp [admitCounts, sumValues_setKey_incr, h]

/-- Every atomic router act preserves the sum equation. -/
theorem windowInv_applyAct (cfg : ProviderConfig) (s : ProviderState)
    (a : Act) (h : s.window_count = sumValues s.org_counts) :
    (applyAct cfg s a).window_count =
      sumValues (applyAct cfg s a).org_counts := by
  cases a with
  | tryAdmit now org_id =>
      cases he : (admitStep cfg s now org_id).error with
      | none =>
          obtain ⟨hs, -⟩ := admitStep_admitted cfg s now org_id he
          simp only [applyAct, hs]
          exact windowInv_admitCounts _ _ (windowInv_resetWindow cfg s now h)
      | some e =>
          rcases admitStep_rejected cfg s now org_id (by rw [he]; simp)
            with h2 | h2 <;> simp only [applyAct, h2]
          · exact h
          · exact windowInv_resetWindow cfg s now h
  | finishOk => simpa [applyAct, onSuccess] using h
  | finishErr now2 =>
      simpa [applyAct, onFailure_window_count, onFailure_org_counts] using h

/-! ## Claim theorems -/

/-- C6: for every job and every list of events, `mark_success` attaches
exactly that event list to the job, persists the updated job, and sets the
final status to `NEEDS_REVIEW` if at least one event has confidence < 0.6,
and to `SUCCEEDED` otherwise. -/
theorem C6_mark_success_rule (st : Store) (j : ParseJob)
    (evs : List ParsedEvent) :
    (mark_success st j evs).1.events = evs ∧
      (mark_success st j evs).2 = storeUpdate st (mark_success st j evs).1 ∧
      ((∃ e ∈ evs, e.confidence < mkRat 3 5) →
        (mark_success st j evs).1.status = .NEEDS_REVIEW) ∧
      ((∀ e ∈ evs, ¬ e.confidence < mkRat 3 5) →
        (mark_success st j evs).1.status = .SUCCEEDED) := by
  refine ⟨rfl, rfl, ?_, ?_⟩
  · intro h
    have ha : (evs.any fun e => decide (e.confidence < mkRat 3 5)) = true := by
      simp only [List.any_eq_true, decide_eq_true_eq]
      exact h
    simp [mark_success, ParseJob.mark_succeeded, ha]
  · intro h
    have ha : (evs.any fun e => decide (e.confidence < mkRat 3 5)) = false := by
      simp only [List.any_eq_false, decide_eq_true_eq]
      exact h
    simp [mark_success, ParseJob.mark_succeeded, ha]

/-- Witness for C6 at a concrete input: one event of confidence 0.5 sends
the job to `NEEDS_REVIEW`, and events of confidence 0.9 leave it
`SUCCEEDED`. -/
theorem C6_mark_success_rule_witness :
    (mark_success [] exJob [exEventLow]).1.events = [exEventLow] ∧
      (mark_success [] exJob [exEventLow]).1.status = .NEEDS_REVIEW ∧
      (mark_success [] exJob [exEventHigh]).1.status = .SUCCEEDED :=
  ⟨(C6_mark_success_rule [] exJob [exEventLow]).1,
    (C6_mark_success_rule [] exJob [exEventLow]).2.2.1 (by decide),
    (C6_mark_success_rule [] exJob [exEventHigh]).2.2.2 (by decide)⟩

/-- C10: `mark_success` with an empty event list always yields status
`SUCCEEDED`, never `NEEDS_REVIEW`: the low-confidence check over an empty
list is vacuously false. -/
theorem C10_mark_success_empty (st : Store) (j : ParseJob) :
    (mark_success st j []).1.status = .SUCCEEDED ∧
      (mark_success st j []).1.status ≠ .NEEDS_REVIEW := by
  exact ⟨rfl, by simp [mark_success, ParseJob.mark_succeeded]⟩

/-- C7: `review_job` returns `none` for an unknown job id; returns the job
unchanged, persisting nothing, when its status is outside
SUCCEEDED / NEEDS_REVIEW; and otherwise sets `metadata["review"]` to
"approved" with status `SUCCEEDED` for APPROVED, or to "rejected" with
status `FAILED` for REJECTED, persisting and returning the updated job. -/
theorem C7_review_job (stA : Store) (idA : String) (dA : ReviewDecision)
    (stB : Store) (idB : String) (jB : ParseJob) (dB : ReviewDecision)
    (stC : Store) (idC : String) (jC : ParseJob)
    (hA : storeGet stA idA = none)
    (hB : storeGet stB idB = some jB)
    (hBs : jB.status ≠ .SUCCEEDED ∧ jB.status ≠ .NEEDS_REVIEW)
    (hC : storeGet stC idC = some jC)
    (hCs : jC.status = .SUCCEEDED ∨ jC.status = .NEEDS_REVIEW) :
    review_job stA idA dA = (none, stA) ∧
      review_job stB idB dB = (some jB, stB) ∧
      review_job stC idC .APPROVED =
        (some { jC with metadata := setKey jC.metadata "review" "approved",
                        status := .SUCCEEDED },
          storeUpdate stC
            { jC with metadata := setKey jC.metadata "review" "approved",
                      status := .SUCCEEDED }) ∧
      review_job stC idC .REJECTED =
        (some { jC with metadata := setKey jC.metadata "review" "rejected",
                        status := .FAILED },
          storeUpdate stC
            { jC with metadata := setKey jC.metadata "review" "rejected",
                      status := .FAILED }) ∧
      lookupKey (setKey jC.metadata "review" "approved") "review" =
        some "approved" ∧
      lookupKey (setKey jC.metadata "review" "rejected") "review" =
        some "rejected" := by
  refine ⟨?_, ?_, ?_, ?_, lookupKey_setKey_self _ _ _,
    lookupKey_setKey_self _ _ _⟩
  · simp [review_job, hA]
  · simp [review_job, hB, hBs.1, hBs.2]
  · rcases hCs with h | h <;> simp [review_job, hC, h]
  · rcases hCs with h | h <;> simp [review_job, hC, h]

/-- Witness for C7 at concrete inputs: an empty store, a pending job, and
a succeeded job. -/
theorem C7_review_job_witness :
    review_job [] "missing" .APPROVED = (none, ([] : Store)) ∧
      review_job [("job-1", exJob)] "job-1" .APPROVED =
        (some exJob, [("job-1", exJob)]) ∧
      review_job [("job-1", { exJob with status := .SUCCEEDED })] "job-1"
          .APPROVED =
        (some { exJob with
                  metadata := setKey exJob.metadata "review" "approved",
                  status := .SUCCEEDED },
          storeUpdate [("job-1", { exJob with status := .SUCCEEDED })]
            { exJob with
                metadata := setKey exJob.metadata "review" "approved",
                status := .SUCCEEDED }) := by
  have h := C7_review_job [] "missing" .APPROVED
    [("job-1", exJob)] "job-1" exJob .APPROVED
    [("job-1", { exJob with status := .SUCCEEDED })] "job-1"
    { exJob with status := .SUCCEEDED }
    (by decide) (by decide) (by decide) (by decide) (by decide)
  exact ⟨h.1, h.2.1, h.2.2.1⟩

/-- C3: with a rollout configured and the earlier gates passing
(provider enabled, circuit not open), `parse_with` admits an org exactly by
the rollout rule — `allow_by_default ∧ org ∉ blocklist`, or
`¬allow_by_default ∧ org ∈ allowlist`; a denied org fails with
`PROVIDER_UNAVAILABLE`, the client is not invoked and the state is
untouched, while an allowed org is never rollout-rejected (it can only
still fail on the later quota and concurrency gates). -/
theorem C3_rollout_rule (cfg : ProviderConfig) (r : ProviderRollout)
    (s : ProviderState) (now now2 : ℚ) (org_id : String) (oc : ClientOutcome)
    (hr : cfg.rollout = some r)
    (hen : cfg.enabled = true)
    (hcb : circuitBlocked s now = false) :
    (r.is_allowed org_id = true ↔
      ((r.allow_by_default = true ∧ org_id ∉ r.blocklist) ∨
        (r.allow_by_default = false ∧ org_id ∈ r.allowlist))) ∧
      (r.is_allowed org_id = false →
        parse_with cfg s now now2 org_id oc =
          ⟨.error .PROVIDER_UNAVAILABLE, s, false⟩) ∧
      (r.is_allowed org_id = true →
        (parse_with cfg s now now2 org_id oc).invoked = true ∨
          (parse_with cfg s now now2 org_id oc).result =
            .error .QUOTA_EXCEEDED ∨
          (parse_with cfg s now now2 org_id oc).result =
            .error .CONCURRENCY_LIMIT) := by
  refine ⟨?_, ?_, ?_⟩
  · cases hd : r.allow_by_default <;>
      simp [ProviderRollout.is_allowed, hd]
  · intro h
    have hrd : rolloutDenied cfg org_id = true := by
      simp [rolloutDenied, hr, h]
    have he : admitStep cfg s now org_id =
        ⟨some .PROVIDER_UNAVAILABLE, s⟩ := by
      unfold admitStep
      simp [hen, hcb, hrd]
    rw [parse_with_of_reject cfg s now now2 org_id oc _ (by rw [he])]
    rw [he]
  · intro h
    have hrd : rolloutDenied cfg org_id = false := by
      simp [rolloutDenied, hr, h]
    cases he : (admitStep cfg s now org_id).error with
    | none =>
        left
        exact (parse_with_invoked_iff cfg s now now2 org_id oc).mpr he
    | some e =>
        right
        rw [parse_with_of_reject cfg s now now2 org_id oc e he]
        unfold admitStep at he
        dsimp only at he
        split_ifs at he <;> simp_all

/-- Witness for C3 at a concrete input: an allowlist-only rollout admits
the allowlisted org and turns away another org with
`PROVIDER_UNAVAILABLE` without touching the state. -/
theorem C3_rollout_rule_witness :
    ((ProviderRollout.mk false ["org-1"] []).is_allowed "org-1" = true ↔
      (((ProviderRollout.mk false ["org-1"] []).allow_by_default = true ∧
          "org-1" ∉ (ProviderRollout.mk false ["org-1"] []).blocklist) ∨
        ((ProviderRollout.mk false ["org-1"] []).allow_by_default = false ∧
          "org-1" ∈ (ProviderRollout.mk false ["org-1"] []).allowlist))) ∧
      parse_with { rollout := some (ProviderRollout.mk false ["org-1"] []) }
          (initState 0) 1 2 "org-2" (.ok []) =
        ⟨.error .PROVIDER_UNAVAILABLE, initState 0, false⟩ ∧
      (parse_with { rollout := some (ProviderRollout.mk false ["org-1"] []) }
          (initState 0) 1 2 "org-1" (.ok [])).invoked = true := by
  have h1 := C3_rollout_rule
    { rollout := some (ProviderRollout.mk false ["org-1"] []) }
    (ProviderRollout.mk false ["org-1"] [])
    (initState 0) 1 2 "org-2" (.ok []) rfl rfl (by decide)
  have h2 := C3_rollout_rule
    { rollout := some (ProviderRollout.mk false ["org-1"] []) }
    (ProviderRollout.mk false ["org-1"] [])
    (initState 0) 1 2 "org-1" (.ok []) rfl rfl (by decide)
  refine ⟨h2.1, h1.2.1 (by decide), ?_⟩
  refine (parse_with_invoked_iff _ _ _ _ _ _).mpr ?_
  simp [admitStep, initState, circuitBlocked, rolloutDenied,
    ProviderRollout.is_allowed, resetWindow, globalQuotaExceeded,
    orgQuotaExceeded, concurrencyBlocked]

/-- C9: a `parse_with` call that fails admission raises the failure before
the client is invoked and leaves the counters as the gate checks found
them: the state is either untouched or carries only the window reset, and
`inflight`, in particular, is unchanged; an unknown provider fails with
`INVALID_PROVIDER` leaving the whole router untouched. -/
theorem C9_admission_failure_frame (r : Router) (p : Provider)
    (nowr now2r : ℚ) (orgr : String) (ocr : ClientOutcome)
    (cfg : ProviderConfig) (s : ProviderState) (now now2 : ℚ)
    (org_id : String) (oc : ClientOutcome)
    (hp : lookupKey r.entries p = none)
    (hni : (parse_with cfg s now now2 org_id oc).invoked = false) :
    Router.parse_with r p nowr now2r orgr ocr =
        ⟨.error .INVALID_PROVIDER, false, r⟩ ∧
      (∃ e, (parse_with cfg s now now2 org_id oc).result = .error e) ∧
      (parse_with cfg s now now2 org_id oc).state.inflight = s.inflight ∧
      ((parse_with cfg s now now2 org_id oc).state = s ∨
        (parse_with cfg s now now2 org_id oc).state = resetWindow cfg s now) := by
  refine ⟨by simp [Router.parse_with, hp], ?_⟩
  cases he : (admitStep cfg s now org_id).error with
  | none =>
      have := (parse_with_invoked_iff cfg s now now2 org_id oc).mpr he
      rw [this] at hni
      exact absurd hni (by simp)
  | some e =>
      rw [parse_with_of_reject cfg s now now2 org_id oc e he]
      have hst := admitStep_rejected cfg s now org_id (by rw [he]; simp)
      refine ⟨⟨e, rfl⟩, ?_, hst⟩
      rcases hst with h | h
      · simp [h]
      · simp [h, resetWindow_inflight]

/-- Witness for C9 at a concrete input: an empty router rejects any
provider with `INVALID_PROVIDER`, and a disabled provider rejects a call
without invoking the client or changing its state. -/
theorem C9_admission_failure_frame_witness :
    Router.parse_with ⟨[]⟩ .OPENAI 0 0 "org-1" (.ok []) =
        ⟨.error .INVALID_PROVIDER, false, ⟨[]⟩⟩ ∧
      (∃ e, (parse_with { enabled := false } (initState 0) 1 2 "org-1"
        (.ok [])).result = .error e) ∧
      (parse_with { enabled := false } (initState 0) 1 2 "org-1"
          (.ok [])).state.inflight = (initState 0).inflight ∧
      ((parse_with { enabled := false } (initState 0) 1 2 "org-1"
          (.ok [])).state = initState 0 ∨
        (parse_with { enabled := false } (initState 0) 1 2 "org-1"
          (.ok [])).state = resetWindow { enabled := false } (initState 0) 1) :=
  C9_admission_failure_frame ⟨[]⟩ .OPENAI 0 0 "org-1" (.ok [])
    { enabled := false } (initState 0) 1 2 "org-1" (.ok [])
    rfl (by simp [parse_with, admitStep])

/-- C5: in every provider state reachable from registration by any
interleaving of `parse_with` locked sections, `window_count` equals the
sum of the `org_counts` values. -/
theorem C5_window_count_eq_sum (cfg : ProviderConfig) (s : ProviderState)
    (h : Reachable cfg s) : s.window_count = sumValues s.org_counts := by
  induction h with
  | init now => rfl
  | step a _ ih => exact windowInv_applyAct _ _ a ih

/-- Witness for C5 at a concrete reachable state: two admissions by two
different orgs from a fresh registration. -/
theorem C5_window_count_eq_sum_witness :
    (applyAct { } (applyAct { } (initState 0) (.tryAdmit 1 "org-1"))
        (.tryAdmit 2 "org-2")).window_count =
      sumValues (applyAct { } (applyAct { } (initState 0) (.tryAdmit 1 "org-1"))
        (.tryAdmit 2 "org-2")).org_counts :=
  C5_window_count_eq_sum { } _
    (Reachable.step (.tryAdmit 2 "org-2")
      (Reachable.step (.tryAdmit 1 "org-1") (Reachable.init 0)))

/-- `inflight` is nonnegative in every state an act can produce from a
state where it is nonnegative. -/
theorem inflight_nonneg_applyAct (cfg : ProviderConfig) (s : ProviderState)
    (a : Act) (h : 0 ≤ s.inflight) : 0 ≤ (applyAct cfg s a).inflight := by
  cases a with
  | tryAdmit now org_id =>
      cases he : (admitStep cfg s now org_id).error with
      | none =>
          obtain ⟨hs, -⟩ := admitStep_admitted cfg s now org_id he
          simp only [applyAct, hs, admitCounts]
          have := resetWindow_inflight cfg s now
          omega
      | some e =>
          rcases admitStep_rejected cfg s now org_id (by rw [he]; simp)
            with h2 | h2 <;> simp only [applyAct, h2]
          · exact h
          · rw [resetWindow_inflight]
            exact h
  | finishOk =>
      simp only [applyAct, onSuccess]
      exact le_max_left 0 _
  | finishErr now2 =>
      simp only [applyAct]
      unfold onFailure
      dsimp only
      split <;> exact le_max_left 0 _

/-- When a nonnegative concurrency limit is set, every act keeps
`inflight` at or below it. -/
theorem inflight_le_applyAct (cfg : ProviderConfig) (s : ProviderState)
    (a : Act) (c : Int) (hc : cfg.concurrency_limit = some c) (h0 : 0 ≤ c)
    (h : s.inflight ≤ c) : (applyAct cfg s a).inflight ≤ c := by
  cases a with
  | tryAdmit now org_id =>
      cases he : (admitStep cfg s now org_id).error with
      | none =>
          obtain ⟨hs, -, -, -, -, -, hcc⟩ := admitStep_admitted cfg s now org_id he
          simp only [applyAct, hs, admitCounts]
          rw [concurrencyBlocked, hc] at hcc
          simp only [decide_eq_false_iff_not, not_le] at hcc
          have := resetWindow_inflight cfg s now
          omega
      | some e =>
          rcases admitStep_rejected cfg s now org_id (by rw [he]; simp)
            with h2 | h2 <;> simp only [applyAct, h2]
          · exact h
          · rw [resetWindow_inflight]
            exact h
  | finishOk =>
      simp only [applyAct, onSuccess]
      exact max_le h0 (by omega)
  | finishErr now2 =>
      simp only [applyAct]
      unfold onFailure
      dsimp only
      split <;> exact max_le h0 (by omega)

/-- C4 as frozen is false on the code: `concurrency_limit` is an arbitrary
Python int, and with a negative limit the freshly registered state already
has `inflight = 0` above the limit (every admission is then rejected, so
`inflight` stays 0 and never comes below the limit). -/
theorem C4_counterexample :
    Reachable { concurrency_limit := some (-1) } (initState 0) ∧
      ({ concurrency_limit := some (-1) } : ProviderConfig).concurrency_limit =
        some (-1) ∧
      ¬ ((initState 0).inflight ≤ -1) :=
  ⟨Reachable.init 0, rfl, by decide⟩

/-- C4 (amended: for a **nonnegative** concurrency limit): in every
reachable provider state, `inflight ≥ 0` and, when
`concurrency_limit = some c` with `0 ≤ c`, `inflight ≤ c`; and an
admission attempted with `inflight ≥ c` while all earlier gates pass fails
with `CONCURRENCY_LIMIT` without invoking the client. -/
theorem C4_inflight_bounds (cfg : ProviderConfig) (s : ProviderState)
    (hs : Reachable cfg s) :
    0 ≤ s.inflight ∧
      (∀ c, cfg.concurrency_limit = some c → 0 ≤ c → s.inflight ≤ c) ∧
      (∀ (now now2 : ℚ) (org_id : String) (oc : ClientOutcome) (c : Int),
        cfg.concurrency_limit = some c →
        cfg.enabled = true →
        circuitBlocked s now = false →
        rolloutDenied cfg org_id = false →
        globalQuotaExceeded cfg (resetWindow cfg s now) = false →
        orgQuotaExceeded cfg (resetWindow cfg s now) org_id = false →
        c ≤ s.inflight →
        parse_with cfg s now now2 org_id oc =
          ⟨.error .CONCURRENCY_LIMIT, resetWindow cfg s now, false⟩) := by
  refine ⟨?_, ?_, ?_⟩
  · induction hs with
    | init now => exact le_refl 0
    | step a _ ih => exact inflight_nonneg_applyAct _ _ a ih
  · intro c hc h0
    induction hs with
    | init now => exact h0
    | step a _ ih => exact inflight_le_applyAct _ _ a c hc h0 ih
  · intro now now2 org_id oc c hc hen hcb hrd hgq hoq hfull
    have hcc : concurrencyBlocked cfg (resetWindow cfg s now) = true := by
      rw [concurrencyBlocked, hc, resetWindow_inflight]
      simpa using hfull
    have he : admitStep cfg s now org_id =
        ⟨some .CONCURRENCY_LIMIT, resetWindow cfg s now⟩ := by
      unfold admitStep
      simp [hen, hcb, hrd, hgq, hoq, hcc]
    rw [parse_with_of_reject cfg s now now2 org_id oc _ (by rw [he])]
    rw [he]

/-- Witness for C4 at a concrete input: with `concurrency_limit = 2`, the
reachable state after two admissions has `inflight = 2` within bounds, and
a third admission fails with `CONCURRENCY_LIMIT`. -/
theorem C4_inflight_bounds_witness :
    0 ≤ (⟨0, 2, [("o", 2)], 2, 0, none⟩ : ProviderState).inflight ∧
      (⟨0, 2, [("o", 2)], 2, 0, none⟩ : ProviderState).inflight ≤ 2 ∧
      parse_with { concurrency_limit := some 2 }
          ⟨0, 2, [("o", 2)], 2, 0, none⟩ 0 0 "o" (.ok []) =
        ⟨.error .CONCURRENCY_LIMIT,
          resetWindow { concurrency_limit := some 2 }
            ⟨0, 2, [("o", 2)], 2, 0, none⟩ 0, false⟩ := by
  have hstate : applyAct { concurrency_limit := some 2 }
      (applyAct { concurrency_limit := some 2 } (initState 0) (.tryAdmit 0 "o"))
      (.tryAdmit 0 "o") = (⟨0, 2, [("o", 2)], 2, 0, none⟩ : ProviderState) := by
    simp [applyAct, admitStep, initState, circuitBlocked, rolloutDenied,
      resetWindow, globalQuotaExceeded, orgQuotaExceeded, concurrencyBlocked,
      admitCounts, lookupD, lookupKey, setKey,
      (by decide : ¬ ((60 : ℚ) ≤ 0))]
  have hreach : Reachable { concurrency_limit := some 2 }
      (⟨0, 2, [("o", 2)], 2, 0, none⟩ : ProviderState) := by
    rw [← hstate]
    exact Reachable.step _ (Reachable.step _ (Reachable.init 0))
  have h := C4_inflight_bounds _ _ hreach
  exact ⟨h.1, h.2.1 2 rfl (by decide),
    h.2.2 0 0 "o" (.ok []) 2 rfl rfl rfl rfl rfl rfl (by decide)⟩

/-- Finer characterization of a rejected admission: a rejection at the
enablement / circuit / rollout gates leaves the state untouched, a
rejection at the quota / concurrency gates keeps the window reset and
implies the first three gates passed. -/
theorem admitStep_rejected_cases (cfg : ProviderConfig) (s : ProviderState)
    (now : ℚ) (org_id : String) (e : RouterError)
    (h : (admitStep cfg s now org_id).error = some e) :
    ((admitStep cfg s now org_id).state = s ∧
        (cfg.enabled = false ∨ circuitBlocked s now = true ∨
          rolloutDenied cfg org_id = true)) ∨
      ((admitStep cfg s now org_id).state = resetWindow cfg s now ∧
        cfg.enabled = true ∧ circuitBlocked s now = false ∧
        rolloutDenied cfg org_id = false) := by
  unfold admitStep at h ⊢
  dsimp only at h ⊢
  split_ifs at h ⊢ <;> simp_all

/-- When a call does not reset the window and the first three gates pass,
the reset statement is a no-op. -/
theorem callResets_false_reset (cfg : ProviderConfig) (s : ProviderState)
    (c : CallSpec) (hnr : callResets cfg s c = false)
    (hen : cfg.enabled = true) (hcb : circuitBlocked s c.now = false)
    (hrd : rolloutDenied cfg c.org_id = false) :
    resetWindow cfg s c.now = s := by
  rw [callResets, hen, hcb, hrd] at hnr
  simp only [Bool.not_false, Bool.true_and, Bool.and_self,
    decide_eq_false_iff_not] at hnr
  unfold resetWindow
  rw [if_neg hnr]

/-- With a nonnegative global quota, one whole `parse_with` call keeps
`window_count` at or below the quota. -/
theorem stepCall_window_le (cfg : ProviderConfig) (s : ProviderState)
    (c : CallSpec) (q : Int) (hq : cfg.quota_per_window = some q)
    (h0 : 0 ≤ q) (h : s.window_count ≤ q) :
    (stepCall cfg s c).state.window_count ≤ q := by
  unfold stepCall
  cases he : (admitStep cfg s c.now c.org_id).error with
  | some e =>
      rw [parse_with_of_reject _ _ _ _ _ _ e he]
      rcases admitStep_rejected cfg s c.now c.org_id (by rw [he]; simp)
        with h2 | h2 <;> simp only [h2]
      · exact h
      · rcases resetWindow_cases cfg s c.now with h3 | h3
        · rw [h3]
          exact h
        · rw [h3.1]
          exact h0
  | none =>
      obtain ⟨hs, -, -, -, hg, -, -⟩ := admitStep_admitted cfg s c.now c.org_id he
      rw [globalQuotaExceeded, hq] at hg
      simp only [decide_eq_false_iff_not, not_le] at hg
      cases hoc : c.outcome with
      | ok evs =>
          rw [parse_with_of_ok _ _ _ _ _ evs he, hs]
          simp only [onSuccess_window_count, admitCounts]
          omega
      | err =>
          rw [parse_with_of_err _ _ _ _ _ he, hs]
          rw [onFailure_window_count]
          simp only [admitCounts]
          omega

/-- With an org quota configured for `org`, one whole `parse_with` call
keeps `org_counts[org]` at or below that quota. -/
theorem stepCall_org_le (cfg : ProviderConfig) (s : ProviderState)
    (c : CallSpec) (m : List (String × Int)) (org : String) (qo : Int)
    (hm : cfg.org_quotas = some m) (hqo : lookupKey m org = some qo)
    (h0 : 0 ≤ qo) (h : lookupD s.org_counts org ≤ qo) :
    lookupD (stepCall cfg s c).state.org_counts org ≤ qo := by
  unfold stepCall
  cases he : (admitStep cfg s c.now c.org_id).error with
  | some e =>
      rw [parse_with_of_reject _ _ _ _ _ _ e he]
      rcases admitStep_rejected cfg s c.now c.org_id (by rw [he]; simp)
        with h2 | h2 <;> simp only [h2]
      · exact h
      · rcases resetWindow_cases cfg s c.now with h3 | h3
        · rw [h3]
          exact h
        · rw [h3.2]
          simp [lookupD, lookupKey, h0]
  | none =>
      obtain ⟨hs, -, -, -, -, ho, -⟩ := admitStep_admitted cfg s c.now c.org_id he
      have hcounts :
          (stepCall cfg s c).state.org_counts =
            (admitCounts (resetWindow cfg s c.now) c.org_id).org_counts := by
        unfold stepCall
        cases hoc : c.outcome with
        | ok evs => rw [parse_with_of_ok _ _ _ _ _ evs he, hs, onSuccess_org_counts]
        | err => rw [parse_with_of_err _ _ _ _ _ he, hs, onFailure_org_counts]
      rw [show (parse_with cfg s c.now c.now2 c.org_id c.outcome).state.org_counts =
        (admitCounts (resetWindow cfg s c.now) c.org_id).org_counts from hcounts]
      simp only [admitCounts]
      by_cases horg : c.org_id = org
      · subst horg
        rw [lookupD_setKey_self]
        have hne := lookupKey_isEmpty_false m _ _ hqo
        simp [orgQuotaExceeded, hm, hne, hqo] at ho
        omega
      · rw [lookupD_setKey_ne _ _ _ _ horg]
        rcases resetWindow_cases cfg s c.now with h3 | h3
        · rw [h3]
          exact h
        · rw [h3.2]
          simp [lookupD, lookupKey, h0]

/-- Counter evolution of a single no-reset call: `window_count` and the
per-org counters grow exactly by the admission indicator. -/
theorem stepCall_counts_eq (cfg : ProviderConfig) (s : ProviderState)
    (c : CallSpec) (hnr : callResets cfg s c = false) :
    (stepCall cfg s c).state.window_count =
        s.window_count + (if (stepCall cfg s c).invoked then 1 else 0) ∧
      ∀ org, lookupD (stepCall cfg s c).state.org_counts org =
        lookupD s.org_counts org +
          (if (stepCall cfg s c).invoked && decide (c.org_id = org) then 1
            else 0) := by
  cases he : (admitStep cfg s c.now c.org_id).error with
  | some e =>
      have hstep : stepCall cfg s c =
          ⟨.error e, (admitStep cfg s c.now c.org_id).state, false⟩ :=
        parse_with_of_reject _ _ _ _ _ _ e he
      rcases admitStep_rejected_cases cfg s c.now c.org_id e he with
        ⟨h2, -⟩ | ⟨h2, hen, hcb, hrd⟩
      · simp [hstep, h2]
      · have hrs := callResets_false_reset cfg s c hnr hen hcb hrd
        simp [hstep, h2, hrs]
  | none =>
      obtain ⟨hs, hen, hcb, hrd, -, -, -⟩ :=
        admitStep_admitted cfg s c.now c.org_id he
      have hrs := callResets_false_reset cfg s c hnr hen hcb hrd
      have hinv : (stepCall cfg s c).invoked = true :=
        (parse_with_invoked_iff _ _ _ _ _ _).mpr he
      have hcounts :
          (stepCall cfg s c).state.org_counts =
              (admitCounts s c.org_id).org_counts ∧
            (stepCall cfg s c).state.window_count =
              (admitCounts s c.org_id).window_count := by
        unfold stepCall
        cases hoc : c.outcome with
        | ok evs =>
            rw [parse_with_of_ok _ _ _ _ _ evs he, hs, hrs]
            exact ⟨onSuccess_org_counts _, onSuccess_window_count _⟩
        | err =>
            rw [parse_with_of_err _ _ _ _ _ he, hs, hrs]
            exact ⟨onFailure_org_counts _ _ _, onFailure_window_count _ _ _⟩
      refine ⟨?_, ?_⟩
      · rw [hcounts.2, hinv]
        simp [admitCounts]
      · intro org
        rw [hcounts.1, hinv]
        simp only [admitCounts]
        by_cases horg : c.org_id = org
        · subst horg
          simp [lookupD_setKey_self]
        · simp [lookupD_setKey_ne _ _ _ _ horg, horg]

/-- A nonnegative global quota bounds `window_count` along any run. -/
theorem run_window_le (cfg : ProviderConfig) (q : Int)
    (hq : cfg.quota_per_window = some q) (h0 : 0 ≤ q) :
    ∀ (calls : List CallSpec) (s : ProviderState), s.window_count ≤ q →
      (runCalls cfg s calls).window_count ≤ q := by
  intro calls
  induction calls with
  | nil => intro s h; simpa [runCalls] using h
  | cons c rest ih =>
      intro s h
      simpa [runCalls] using ih _ (stepCall_window_le cfg s c q hq h0 h)

/-- A nonnegative org quota bounds that org's counter along any run. -/
theorem run_org_le (cfg : ProviderConfig) (m : List (String × Int))
    (org : String) (qo : Int) (hm : cfg.org_quotas = some m)
    (hqo : lookupKey m org = some qo) (h0 : 0 ≤ qo) :
    ∀ (calls : List CallSpec) (s : ProviderState),
      lookupD s.org_counts org ≤ qo →
      lookupD (runCalls cfg s calls).org_counts org ≤ qo := by
  intro calls
  induction calls with
  | nil => intro s h; simpa [runCalls] using h
  | cons c rest ih =>
      intro s h
      simpa [runCalls] using ih _ (stepCall_org_le cfg s c m org qo hm hqo h0 h)

/-- Along a run that never resets the window, `window_count` and each
org counter grow by exactly the number of admitted calls. -/
theorem run_counts_eq (cfg : ProviderConfig) :
    ∀ (calls : List CallSpec) (s : ProviderState),
      noResetRun cfg s calls = true →
      (runCalls cfg s calls).window_count =
          s.window_count + admittedCount cfg s calls ∧
        ∀ org, lookupD (runCalls cfg s calls).org_counts org =
          lookupD s.org_counts org + admittedForOrg cfg org s calls := by
  intro calls
  induction calls with
  | nil =>
      intro s _
      exact ⟨by simp [runCalls, admittedCount], fun org => by
        simp [runCalls, admittedForOrg]⟩
  | cons c rest ih =>
      intro s hnr
      simp only [noResetRun, Bool.and_eq_true, Bool.not_eq_true'] at hnr
      obtain ⟨hc, hrest⟩ := hnr
      obtain ⟨hwc, horg⟩ := stepCall_counts_eq cfg s c hc
      obtain ⟨ihw, iho⟩ := ih _ hrest
      constructor
      · simp only [runCalls, admittedCount]
        rw [ihw, hwc]
        ring
      · intro org
        simp only [runCalls, admittedForOrg]
        rw [iho org, horg org]
        ring

/-- C2 as frozen is false on the code: quota values are arbitrary Python
ints, and with `quota_per_window = -1` a window with zero admitted
requests already exceeds the quota (every call is rejected but the count
0 stays above -1). -/
theorem C2_counterexample :
    ({ quota_per_window := some (-1) } : ProviderConfig).quota_per_window =
        some (-1) ∧
      (initState 0).window_count = 0 ∧
      noResetRun { quota_per_window := some (-1) } (initState 0) [] = true ∧
      ¬ (admittedCount { quota_per_window := some (-1) } (initState 0) [] ≤
        -1) :=
  ⟨rfl, rfl, rfl, by decide⟩

/-- C2 (amended: for **nonnegative** quota values): starting at a window
reset, within a single window (no call resets the window again) the number
of admitted requests never exceeds `quota_per_window`, the number of
admitted requests of an org listed in `org_quotas` never exceeds its
entry, and an over-quota call — globally or per org — fails with
`QUOTA_EXCEEDED` without invoking the client. -/
theorem C2_window_quota_bounds (cfg : ProviderConfig) (q : Int)
    (s : ProviderState) (calls : List CallSpec)
    (m : List (String × Int)) (org : String) (qo : Int)
    (s2 : ProviderState) (now2 now2b : ℚ) (org2 : String) (oc2 : ClientOutcome)
    (s3 : ProviderState) (now3 now3b : ℚ) (oc3 : ClientOutcome)
    (hq : cfg.quota_per_window = some q) (h0q : 0 ≤ q)
    (hwc : s.window_count = 0) (hnr : noResetRun cfg s calls = true)
    (hm : cfg.org_quotas = some m) (hqo : lookupKey m org = some qo)
    (h0qo : 0 ≤ qo) (hoc0 : lookupD s.org_counts org = 0)
    (hen : cfg.enabled = true)
    (hcb2 : circuitBlocked s2 now2 = false)
    (hrd2 : rolloutDenied cfg org2 = false)
    (hover2 : q ≤ (resetWindow cfg s2 now2).window_count)
    (hcb3 : circuitBlocked s3 now3 = false)
    (hrd3 : rolloutDenied cfg org = false)
    (hg3 : globalQuotaExceeded cfg (resetWindow cfg s3 now3) = false)
    (hover3 : qo ≤ lookupD (resetWindow cfg s3 now3).org_counts org) :
    admittedCount cfg s calls ≤ q ∧
      admittedForOrg cfg org s calls ≤ qo ∧
      parse_with cfg s2 now2 now2b org2 oc2 =
        ⟨.error .QUOTA_EXCEEDED, resetWindow cfg s2 now2, false⟩ ∧
      parse_with cfg s3 now3 now3b org oc3 =
        ⟨.error .QUOTA_EXCEEDED, resetWindow cfg s3 now3, false⟩ := by
  refine ⟨?_, ?_, ?_, ?_⟩
  · have heq := (run_counts_eq cfg calls s hnr).1
    have hle := run_window_le cfg q hq h0q calls s (by omega)
    omega
  · have heq := (run_counts_eq cfg calls s hnr).2 org
    have hle := run_org_le cfg m org qo hm hqo h0qo calls s (by omega)
    omega
  · have hgq : globalQuotaExceeded cfg (resetWindow cfg s2 now2) = true := by
      rw [globalQuotaExceeded, hq]
      simpa using hover2
    have he : admitStep cfg s2 now2 org2 =
        ⟨some .QUOTA_EXCEEDED, resetWindow cfg s2 now2⟩ := by
      unfold admitStep
      simp [hen, hcb2, hrd2, hgq]
    rw [parse_with_of_reject _ _ _ _ _ _ _ (by rw [he]), he]
  · have hne := lookupKey_isEmpty_false m _ _ hqo
    have hoq : orgQuotaExceeded cfg (resetWindow cfg s3 now3) org = true := by
      simp [orgQuotaExceeded, hm, hne, hqo]
      exact hover3
    have he : admitStep cfg s3 now3 org =
        ⟨some .QUOTA_EXCEEDED, resetWindow cfg s3 now3⟩ := by
      unfold admitStep
      simp [hen, hcb3, hrd3, hg3, hoq]
    rw [parse_with_of_reject _ _ _ _ _ _ _ (by rw [he]), he]

/-- Witness for C2 at a concrete input: quota 2 with org quota 1 for
`org-1`; of three in-window calls the first two are admitted, the third is
over quota; and concrete over-quota states are rejected with
`QUOTA_EXCEEDED` both globally and per org. -/
theorem C2_window_quota_bounds_witness :
    admittedCount
        { quota_per_window := some 2, org_quotas := some [("org-1", 1)] }
        (initState 0)
        [⟨1, 1, "org-1", .ok []⟩, ⟨2, 2, "org-2", .ok []⟩,
          ⟨3, 3, "org-1", .ok []⟩] ≤ 2 ∧
      admittedForOrg
        { quota_per_window := some 2, org_quotas := some [("org-1", 1)] }
        "org-1" (initState 0)
        [⟨1, 1, "org-1", .ok []⟩, ⟨2, 2, "org-2", .ok []⟩,
          ⟨3, 3, "org-1", .ok []⟩] ≤ 1 ∧
      parse_with { quota_per_window := some 2, org_quotas := some [("org-1", 1)] }
          ⟨0, 2, [("org-1", 1), ("org-2", 1)], 0, 0, none⟩ 4 4 "org-3" (.ok []) =
        ⟨.error .QUOTA_EXCEEDED,
          resetWindow { quota_per_window := some 2, org_quotas := some [("org-1", 1)] }
            ⟨0, 2, [("org-1", 1), ("org-2", 1)], 0, 0, none⟩ 4, false⟩ ∧
      parse_with { quota_per_window := some 2, org_quotas := some [("org-1", 1)] }
          ⟨0, 1, [("org-1", 1)], 0, 0, none⟩ 5 5 "org-1" (.ok []) =
        ⟨.error .QUOTA_EXCEEDED,
          resetWindow { quota_per_window := some 2, org_quotas := some [("org-1", 1)] }
            ⟨0, 1, [("org-1", 1)], 0, 0, none⟩ 5, false⟩ :=
  C2_window_quota_bounds
    { quota_per_window := some 2, org_quotas := some [("org-1", 1)] } 2
    (initState 0)
    [⟨1, 1, "org-1", .ok []⟩, ⟨2, 2, "org-2", .ok []⟩, ⟨3, 3, "org-1", .ok []⟩]
    [("org-1", 1)] "org-1" 1
    ⟨0, 2, [("org-1", 1), ("org-2", 1)], 0, 0, none⟩ 4 4 "org-3" (.ok [])
    ⟨0, 1, [("org-1", 1)], 0, 0, none⟩ 5 5 (.ok [])
    rfl (by decide) rfl
    (by simp [noResetRun, callResets, stepCall, parse_with, admitStep,
      circuitBlocked, rolloutDenied, resetWindow, globalQuotaExceeded,
      orgQuotaExceeded, concurrencyBlocked, admitCounts, onSuccess, onFailure,
      initState, lookupD, lookupKey, setKey,
      (by decide : ¬ ((60 : ℚ) ≤ 1)), (by decide : ¬ ((60 : ℚ) ≤ 2)),
      (by decide : ¬ ((60 : ℚ) ≤ 3))])
    rfl (by decide) (by decide) rfl rfl rfl rfl
    (by simp [resetWindow, (by decide : ¬ ((60 : ℚ) ≤ 4))])
    rfl rfl
    (by simp [globalQuotaExceeded, resetWindow, (by decide : ¬ ((60 : ℚ) ≤ 5))])
    (by simp [resetWindow, lookupD, lookupKey, (by decide : ¬ ((60 : ℚ) ≤ 5))])

theorem admitCounts_failure_count (s : ProviderState) (org_id : String) :
    (admitCounts s org_id).failure_count = s.failure_count := rfl

theorem admitCounts_circuit (s : ProviderState) (org_id : String) :
    (admitCounts s org_id).circuit_open_until = s.circuit_open_until := rfl

/-- The breaker trips when the incremented failure count reaches the
threshold: the count resets and the cooldown is installed. -/
theorem onFailure_trip (cfg : ProviderConfig) (s : ProviderState) (now2 : ℚ)
    (h : cfg.failure_threshold ≤ s.failure_count + 1) :
    (onFailure cfg s now2).failure_count = 0 ∧
      (onFailure cfg s now2).circuit_open_until =
        some (now2 + cfg.cooldown_seconds) := by
  unfold onFailure
  dsimp only
  rw [if_pos h]
  exact ⟨rfl, rfl⟩

/-- Below the threshold a failure just increments the count. -/
theorem onFailure_no_trip (cfg : ProviderConfig) (s : ProviderState)
    (now2 : ℚ) (h : ¬ cfg.failure_threshold ≤ s.failure_count + 1) :
    (onFailure cfg s now2).failure_count = s.failure_count + 1 ∧
      (onFailure cfg s now2).circuit_open_until = s.circuit_open_until := by
  unfold onFailure
  dsimp only
  rw [if_neg h]
  exact ⟨rfl, rfl⟩

/-- Failure bookkeeping of one admitted call with a failing client. -/
theorem stepCall_err_effect (cfg : ProviderConfig) (s : ProviderState)
    (c : CallSpec) (hinv : (stepCall cfg s c).invoked = true)
    (hout : c.outcome = .err) :
    (cfg.failure_threshold ≤ s.failure_count + 1 →
        (stepCall cfg s c).state.failure_count = 0 ∧
          (stepCall cfg s c).state.circuit_open_until =
            some (c.now2 + cfg.cooldown_seconds)) ∧
      (¬ cfg.failure_threshold ≤ s.failure_count + 1 →
        (stepCall cfg s c).state.failure_count = s.failure_count + 1 ∧
          (stepCall cfg s c).state.circuit_open_until =
            s.circuit_open_until) := by
  have he := (parse_with_invoked_iff cfg s c.now c.now2 c.org_id c.outcome).mp hinv
  obtain ⟨hs, -⟩ := admitStep_admitted cfg s c.now c.org_id he
  have hstate : (stepCall cfg s c).state =
      onFailure cfg (admitCounts (resetWindow cfg s c.now) c.org_id) c.now2 := by
    unfold stepCall
    rw [hout, parse_with_of_err _ _ _ _ _ he, hs]
  have hbase : (admitCounts (resetWindow cfg s c.now) c.org_id).failure_count =
      s.failure_count := by
    rw [admitCounts_failure_count, resetWindow_failure_count]
  constructor
  · intro h
    rw [hstate]
    exact onFailure_trip cfg _ c.now2 (by rw [hbase]; exact h)
  · intro h
    rw [hstate]
    have := onFailure_no_trip cfg
      (admitCounts (resetWindow cfg s c.now) c.org_id) c.now2
      (by rw [hbase]; exact h)
    rw [hbase] at this
    rw [admitCounts_circuit, resetWindow_circuit] at this
    exact this

/-- A sequence of admitted, failing calls whose length makes the failure
count reach the threshold ends with the breaker tripped: the failure count
is reset to 0 and the cooldown starts at the completion time of the last
call. -/
theorem runFailures_trip (cfg : ProviderConfig) :
    ∀ (calls : List CallSpec) (s : ProviderState),
      calls ≠ [] → allAdmitted cfg s calls = true →
      allFailing calls = true →
      s.failure_count + (calls.length : Int) = cfg.failure_threshold →
      (runCalls cfg s calls).failure_count = 0 ∧
        (runCalls cfg s calls).circuit_open_until =
          some (lastNow2 calls + cfg.cooldown_seconds) := by
  intro calls
  induction calls with
  | nil => intro s h; exact absurd rfl h
  | cons c rest ih =>
      intro s _ hadm hfail hlen
      simp only [allAdmitted, Bool.and_eq_true] at hadm
      obtain ⟨hinv, hadm2⟩ := hadm
      simp only [allFailing, List.all_cons, Bool.and_eq_true,
        decide_eq_true_eq] at hfail
      obtain ⟨hout, hfail2⟩ := hfail
      cases rest with
      | nil =>
          have htrip := (stepCall_err_effect cfg s c hinv hout).1
            (by simp at hlen; omega)
          simpa [runCalls, lastNow2] using htrip
      | cons c2 rest2 =>
          have hnotrip := (stepCall_err_effect cfg s c hinv hout).2
            (by simp at hlen ⊢; omega)
          have ihres := ih (stepCall cfg s c).state (List.cons_ne_nil c2 rest2)
            hadm2 (by simpa [allFailing] using hfail2)
            (by
              rw [hnotrip.1]
              simp at hlen ⊢
              omega)
          simpa [runCalls, lastNow2] using ihres

/-- An admitted call implies the provider is enabled. -/
theorem invoked_enabled (cfg : ProviderConfig) (s : ProviderState)
    (now now2 : ℚ) (org_id : String) (oc : ClientOutcome)
    (h : (parse_with cfg s now now2 org_id oc).invoked = true) :
    cfg.enabled = true :=
  (admitStep_admitted cfg s now org_id
    ((parse_with_invoked_iff cfg s now now2 org_id oc).mp h)).2.1

/-- With the provider enabled and the circuit check firing, admission
fails with `CIRCUIT_OPEN` and the state is untouched. -/
theorem admitStep_circuit_open (cfg : ProviderConfig) (s : ProviderState)
    (now : ℚ) (org_id : String) (hen : cfg.enabled = true)
    (hcb : circuitBlocked s now = true) :
    admitStep cfg s now org_id = ⟨some .CIRCUIT_OPEN, s⟩ := by
  unfold admitStep
  simp [hen, hcb]

/-- C1: starting from `failure_count = 0`, after `failure_threshold`
consecutive admitted calls whose client fails, `failure_count` is reset to
0 and `circuit_open_until` is set to the completion time of the last call
plus `cooldown_seconds`; every subsequent `parse_with` call made (at a
nonnegative monotonic time) before `circuit_open_until` fails with
`CIRCUIT_OPEN` without invoking the client and without touching the
state. -/
theorem C1_circuit_breaker (cfg : ProviderConfig) (s : ProviderState)
    (calls : List CallSpec) (now' now2' : ℚ) (org' : String)
    (oc' : ClientOutcome)
    (hfc : s.failure_count = 0)
    (hne : calls ≠ [])
    (hlen : (calls.length : Int) = cfg.failure_threshold)
    (hadm : allAdmitted cfg s calls = true)
    (hfail : allFailing calls = true)
    (hnow : 0 ≤ now') :
    (runCalls cfg s calls).failure_count = 0 ∧
      (runCalls cfg s calls).circuit_open_until =
        some (lastNow2 calls + cfg.cooldown_seconds) ∧
      (now' < lastNow2 calls + cfg.cooldown_seconds →
        parse_with cfg (runCalls cfg s calls) now' now2' org' oc' =
          ⟨.error .CIRCUIT_OPEN, runCalls cfg s calls, false⟩) := by
  obtain ⟨h1, h2⟩ := runFailures_trip cfg calls s hne hadm hfail (by omega)
  refine ⟨h1, h2, ?_⟩
  intro hlt
  have hen : cfg.enabled = true := by
    cases calls with
    | nil => exact absurd rfl hne
    | cons c rest =>
        simp only [allAdmitted, Bool.and_eq_true] at hadm
        exact invoked_enabled cfg s c.now c.now2 c.org_id c.outcome hadm.1
  have hT : 0 < lastNow2 calls + cfg.cooldown_seconds :=
    lt_of_le_of_lt hnow hlt
  have hcb : circuitBlocked (runCalls cfg s calls) now' = true := by
    simp [circuitBlocked, h2, hlt, ne_of_gt hT]
  have he := admitStep_circuit_open cfg (runCalls cfg s calls) now' org' hen hcb
  rw [parse_with_of_reject _ _ _ _ _ _ _ (by rw [he]), he]

/-- Witness for C1 at a concrete input: `failure_threshold = 2`, two
admitted failing calls completing at time 4, cooldown 30; the breaker
trips and a call at time 10 fails with `CIRCUIT_OPEN`. -/
theorem C1_circuit_breaker_witness :
    (runCalls { failure_threshold := 2 } (initState 0)
        [⟨1, 2, "org-1", .err⟩, ⟨3, 4, "org-1", .err⟩]).failure_count = 0 ∧
      (runCalls { failure_threshold := 2 } (initState 0)
          [⟨1, 2, "org-1", .err⟩, ⟨3, 4, "org-1", .err⟩]).circuit_open_until =
        some (lastNow2 [⟨1, 2, "org-1", .err⟩, ⟨3, 4, "org-1", .err⟩] +
          ({ failure_threshold := 2 } : ProviderConfig).cooldown_seconds) ∧
      parse_with { failure_threshold := 2 }
          (runCalls { failure_threshold := 2 } (initState 0)
            [⟨1, 2, "org-1", .err⟩, ⟨3, 4, "org-1", .err⟩]) 10 11 "org-1"
          (.ok []) =
        ⟨.error .CIRCUIT_OPEN,
          runCalls { failure_threshold := 2 } (initState 0)
            [⟨1, 2, "org-1", .err⟩, ⟨3, 4, "org-1", .err⟩], false⟩ := by
  have h := C1_circuit_breaker { failure_threshold := 2 } (initState 0)
    [⟨1, 2, "org-1", .err⟩, ⟨3, 4, "org-1", .err⟩] 10 11 "org-1" (.ok [])
    rfl (List.cons_ne_nil _ _) (by decide)
    (by simp [allAdmitted, stepCall, parse_with, admitStep, circuitBlocked,
      rolloutDenied, resetWindow, globalQuotaExceeded, orgQuotaExceeded,
      concurrencyBlocked, admitCounts, onFailure, initState,
      (by decide : ¬ ((60 : ℚ) ≤ 1)), (by decide : ¬ ((60 : ℚ) ≤ 3))])
    (by decide) (by decide)
  exact ⟨h.1, h.2.1, h.2.2 (by norm_num [lastNow2])⟩

/-- C8 as frozen is false on the code: `ParseJobStore.get` is
`return self._jobs.get(job_id)`, which hands out the stored mutable
`ParseJob` object itself, not a copy.  Concretely, mutating the object
returned by `get` (here: `mark_running`) changes the record the store
holds. -/
theorem C8_counterexample :
    heapStoreGet exDict "job-1" = some 0 ∧
      storedRecord exHeap exDict "job-1" = some exJob ∧
      storedRecord (heapWrite exHeap 0 exJob.mark_running) exDict "job-1" =
        some exJob.mark_running ∧
      exJob.mark_running ≠ exJob :=
  ⟨rfl, rfl, rfl, by decide⟩

/-- C8 (amended): `get` and `list_for_org` return the stored objects
themselves — `get` hands out the reference the store dictionary holds, so
a mutation through the returned reference is exactly a mutation of the
stored record, and every element of the freshly materialized
`list_for_org` list is one of the store's own object references. -/
theorem C8_reads_alias_store (h : JobHeap) (d : JobsDict)
    (jid org_id : String) (oid : Nat) (v : ParseJob)
    (hget : heapStoreGet d jid = some oid) :
    storedRecord (heapWrite h oid v) d jid = some v ∧
      ∀ oid2 ∈ heapListForOrg h d org_id, ∃ e ∈ d.entries, e.2 = oid2 := by
  constructor
  · simp [storedRecord, hget, heapRead, heapWrite, lookupKey_setKey_self]
  · intro oid2 hmem
    rw [heapListForOrg] at hmem
    obtain ⟨p, hp, hval⟩ := List.mem_filterMap.mp hmem
    refine ⟨p, hp, ?_⟩
    rcases hr : heapRead h p.2 with - | j
    · simp only [hr] at hval
      exact absurd hval (by simp)
    · simp only [hr] at hval
      split_ifs at hval
      simpa using hval

/-- Witness for C8 (amended) at a concrete input: mutating the object
behind the reference returned by `get` for `exJob` is visible in the
stored record. -/
theorem C8_reads_alias_store_witness :
    storedRecord (heapWrite exHeap 0 (exJob.mark_failed "boom")) exDict
        "job-1" = some (exJob.mark_failed "boom") ∧
      ∀ oid2 ∈ heapListForOrg exHeap exDict "org-1",
        ∃ e ∈ exDict.entries, e.2 = oid2 :=
  C8_reads_alias_store exHeap exDict "job-1" "org-1" 0
    (exJob.mark_failed "boom") rfl

end Sheduler
